import Mathlib

/-!
Shallow embedding of `src/data_cleaner.py` (a pandas ETL script that
denormalizes weekly public-health series into a state×week fact table,
a population-weighted national series and cleaned event markers).

Modelling conventions:
* calendar dates are integers (days); `Timedelta.days` of an absolute
  whole-day difference is `Int.natAbs` of the difference;
* numeric cells are `ℚ` (counts `ℤ`), a missing cell (`NaN`) is `none`;
* state keys stay `String`; Python compares strings lexicographically by
  code point, which is the order on `String.data : List Char`;
* pandas `sort_index` / `sort_values` sort by the stated keys only; the
  embedding uses `List.insertionSort` with the same key order (for inputs
  with duplicate sort keys pandas' quicksort leaves the order of ties
  unspecified, so any deterministic choice is a faithful refinement);
* a `DataFrame` is a `List` of row structures, in row order.
-/

/-- Python `str.strip()` on the character list: drop whitespace at both ends. -/
def stripList (l : List Char) : List Char :=
  ((l.dropWhile Char.isWhitespace).reverse.dropWhile Char.isWhitespace).reverse

/-- Pandas `.str.strip().str.upper()` (data_cleaner.py lines 292, 357). -/
def pyStripUpper (s : String) : String :=
  String.mk ((stripList s.data).map Char.toUpper)

/-- USPS ↔ FIPS mapping, `STATE_TO_FIPS` (data_cleaner.py lines 38-45). -/
def STATE_TO_FIPS : List (String × String) :=
  [("AL", "01"), ("AK", "02"), ("AZ", "04"), ("AR", "05"), ("CA", "06"),
   ("CO", "08"), ("CT", "09"), ("DE", "10"), ("DC", "11"),
   ("FL", "12"), ("GA", "13"), ("HI", "15"), ("ID", "16"), ("IL", "17"),
   ("IN", "18"), ("IA", "19"), ("KS", "20"), ("KY", "21"),
   ("LA", "22"), ("ME", "23"), ("MD", "24"), ("MA", "25"), ("MI", "26"),
   ("MN", "27"), ("MS", "28"), ("MO", "29"), ("MT", "30"),
   ("NE", "31"), ("NV", "32"), ("NH", "33"), ("NJ", "34"), ("NM", "35"),
   ("NY", "36"), ("NC", "37"), ("ND", "38"), ("OH", "39"),
   ("OK", "40"), ("OR", "41"), ("PA", "42"), ("RI", "44"), ("SC", "45"),
   ("SD", "46"), ("TN", "47"), ("TX", "48"), ("UT", "49"),
   ("VT", "50"), ("VA", "51"), ("WA", "53"), ("WV", "54"), ("WI", "55"),
   ("WY", "56")]

/-- Pandas `Series.map(STATE_TO_FIPS)` on a USPS code (lines 226, 274, 301). -/
def stateToFips (s : String) : Option String :=
  (STATE_TO_FIPS.find? (fun p => p.1 = s)).map Prod.snd

/-- One row of the population table `pop` as of line 226: columns
`state_usps` and `population` (rows with a missing value were dropped by
`.dropna()` on line 225, so both fields are present). The `state_fips`
column added on line 226 is recomputed and overwritten at line 301 and is
therefore not carried here. -/
structure PopRow where
  state : String
  population : ℤ
deriving DecidableEq, Repr

/-- One raw row of the cases/deaths CSV after the per-cell normalizers of
lines 292-295 (`to_iso_date`, `clean_numeric` + `astype("Int64")`): a cell
that failed to parse is `none`.  `state` is the raw string cell. -/
structure CasesSrcRow where
  state : Option String
  date : Option ℤ
  newCases : Option ℤ
  newDeaths : Option ℤ
deriving DecidableEq, Repr

/-- One row of `cases` after line 297's column selection and
`dropna(subset=["state_usps","week_end_date"])`. -/
structure CaseRow where
  state : String
  date : ℤ
  newCases : Option ℤ
  newDeaths : Option ℤ
deriving DecidableEq, Repr

/-- Lines 292-297: normalize the state key, keep rows whose state and
week-ending date are both present. -/
def cleanCases (rows : List CasesSrcRow) : List CaseRow :=
  rows.filterMap fun r =>
    match r.state, r.date with
    | some s, some d => some ⟨pyStripUpper s, d, r.newCases, r.newDeaths⟩
    | _, _ => none

/-- Per-100k rate (lines 307-308): `count / population * 100000`; `NaN`
(here `none`) when either operand is missing. -/
def per100k (n : Option ℤ) (p : Option ℤ) : Option ℚ :=
  match n, p with
  | some n, some p => some ((n : ℚ) / (p : ℚ) * 100000)
  | _, _ => none

/-- One row of `cases` after the population merge and rate computation
(lines 300-311). -/
structure CaseFull where
  state : String
  date : ℤ
  newCases : Option ℤ
  newDeaths : Option ℤ
  population : Option ℤ
  fips : Option String
  casesPer100k : Option ℚ
  deathsPer100k : Option ℚ
deriving DecidableEq, Repr

/-- Lines 300-308: `cases.merge(pop, on="state_usps", how="left")` followed
by the FIPS map and the per-100k rates.  A left row with no matching
population row keeps `none` for population and rates; a left row with
several matches is duplicated once per match, in order, as pandas does. -/
def mergePop (cs : List CaseRow) (pop : List PopRow) : List CaseFull :=
  cs.flatMap fun c =>
    match pop.filter (fun p => p.state = c.state) with
    | [] => [⟨c.state, c.date, c.newCases, c.newDeaths, none,
              stateToFips c.state, none, none⟩]
    | ps => ps.map fun p =>
        ⟨c.state, c.date, c.newCases, c.newDeaths, some p.population,
         stateToFips c.state,
         per100k c.newCases (some p.population),
         per100k c.newDeaths (some p.population)⟩

/-- One raw row of the vaccination CSV after the per-cell normalizers of
lines 357-362. -/
structure VaxSrcRow where
  location : Option String
  date : Option ℤ
  anyPct : Option ℚ
  fullPct : Option ℚ
  boostPct : Option ℚ
deriving DecidableEq, Repr

/-- One row of `vax_clean` after line 364's selection and
`dropna(subset=["state_usps","week_end_date_vax"])`. -/
structure VaxRow where
  state : String
  date : ℤ
  anyPct : Option ℚ
  fullPct : Option ℚ
  boostPct : Option ℚ
deriving DecidableEq, Repr

/-- Lines 357-365: normalize the location key, keep rows whose state and
date are both present. -/
def cleanVax (rows : List VaxSrcRow) : List VaxRow :=
  rows.filterMap fun r =>
    match r.location, r.date with
    | some s, some d => some ⟨pyStripUpper s, d, r.anyPct, r.fullPct, r.boostPct⟩
    | _, _ => none

/-- Python string order: lexicographic by code point, i.e. the order on the
underlying character lists. -/
def strLe (a b : String) : Prop := a.data ≤ b.data

instance : DecidableRel strLe := fun a b => by
  unfold strLe; infer_instance

instance : IsTotal String strLe :=
  ⟨fun a b => le_total a.data b.data⟩

instance : IsTrans String strLe :=
  ⟨fun _ _ _ h h' => le_trans h h'⟩

instance : IsAntisymm String strLe :=
  ⟨fun _ _ h h' => String.ext (le_antisymm h h')⟩

/-- Row order of `r.set_index(on_keys + [right_date_col]).sort_index()`
(line 117): lexicographic on the (state, date) index. -/
def vaxKeyLe (a b : VaxRow) : Prop :=
  a.state.data < b.state.data ∨ (a.state.data = b.state.data ∧ a.date ≤ b.date)

instance : DecidableRel vaxKeyLe := fun a b => by
  unfold vaxKeyLe; infer_instance

/-- Index key of a right-series row, in the lexicographic order pandas sorts
the MultiIndex by. -/
def vaxKey (r : VaxRow) : Lex (List Char × ℤ) := toLex (r.state.data, r.date)

theorem vaxKeyLe_iff (a b : VaxRow) : vaxKeyLe a b ↔ vaxKey a ≤ vaxKey b := by
  unfold vaxKeyLe vaxKey
  constructor
  · intro h
    exact (Prod.Lex.le_iff _ _).mpr h
  · intro h
    exact (Prod.Lex.le_iff _ _).mp h

instance : IsTotal VaxRow vaxKeyLe :=
  ⟨fun a b => by
    rcases le_total (vaxKey a) (vaxKey b) with h | h
    · exact Or.inl ((vaxKeyLe_iff a b).mpr h)
    · exact Or.inr ((vaxKeyLe_iff b a).mpr h)⟩

instance : IsTrans VaxRow vaxKeyLe :=
  ⟨fun a b c h h' =>
    (vaxKeyLe_iff a c).mpr
      (le_trans ((vaxKeyLe_iff a b).mp h) ((vaxKeyLe_iff b c).mp h'))⟩

/-- Line 117: the right series sorted by its (state, date) index. -/
def sortVax (rs : List VaxRow) : List VaxRow := List.insertionSort vaxKeyLe rs

/-- Position (and absolute day gap) of the first minimum of
`(r_sub[right_date_col] - ts).abs()` — `Series.idxmin` keeps the first
occurrence on ties (line 139).  `i` is the position of the list head. -/
def idxminAux (ts : ℤ) : List VaxRow → ℕ → Option (ℕ × ℕ)
  | [], _ => none
  | r :: rest, i =>
    let d := (r.date - ts).natAbs
    match idxminAux ts rest (i + 1) with
    | none => some (i, d)
    | some (j, dj) => if d ≤ dj then some (i, d) else some (j, dj)

/-- The function `pick_nearest` of lines 137-143: the position in `r_sub` of
the right row nearest in time to `ts`, or `None` when the minimal absolute
gap exceeds `max_gap_days` (`deltas.iloc[idx].days <= max_gap_days`). -/
def pick_nearest (r_sub : List VaxRow) (maxGapDays : ℕ) (ts : ℤ) : Option ℕ :=
  match idxminAux ts r_sub 0 with
  | none => none
  | some (i, d) => if d ≤ maxGapDays then some i else none

/-- Sorted distinct group keys: `df_left.groupby(on_keys)` iterates groups in
ascending key order (line 119). -/
def leftKeys (ls : List CaseFull) : List String :=
  List.insertionSort strLe ((ls.map (fun l => l.state)).dedup)

/-- Lines 123-148 for one group: `r_sub = r.xs(gkeys, ...)` restricted to the
group key (an empty selection raises `KeyError`, caught into an empty frame),
then either `_match_idx = pd.NA` for every row (lines 128-131) or
`pick_nearest` applied to each left date (line 145).  The stored index is the
position in `r_sub` — local to the group, because of `r_sub.reset_index()`
on line 134. -/
def groupMatches (sorted : List VaxRow) (maxGapDays : ℕ) (k : String)
    (grp : List CaseFull) : List (CaseFull × Option ℕ) :=
  let r_sub := sorted.filter (fun r => r.state = k)
  if r_sub.isEmpty then grp.map (fun l => (l, none))
  else grp.map (fun l => (l, pick_nearest r_sub maxGapDays l.date))

/-- One output row of the nearest-week join: the left row's columns plus the
right-hand columns attached by the final merge (`none` when `_match_idx` was
`NA` — a left outer merge attaches no row). -/
structure JoinedRow where
  left : CaseFull
  right : Option VaxRow
deriving DecidableEq, Repr

/-- Result of `left_join_nearest_week`: when every per-group frame is empty
(line 152) the function returns `df_left.copy()`, which has only the
left-hand columns; otherwise the concatenated frame merged with the right
columns. -/
inductive JoinOut where
  | leftOnly (rows : List CaseFull)
  | joined (rows : List JoinedRow)
deriving DecidableEq, Repr

/-- The function `left_join_nearest_week` of lines 109-159, instantiated at
its one call site (lines 376-383): left = cases, right = vaccinations,
`on_keys = ["state_usps"]`.  The concatenated frame `L` pairs each left row
with its group-local `_match_idx`; the closing merge of lines 156-157 joins
`L` against `r.reset_index().reset_index()`, whose `_match_idx` column holds
GLOBAL positions of the sorted right table — the source resolves the
group-local position against the global table, exactly as embedded here. -/
def left_join_nearest_week (ls : List CaseFull) (rs : List VaxRow)
    (maxGapDays : ℕ) : JoinOut :=
  let sorted := sortVax rs
  let L := (leftKeys ls).flatMap
    (fun k => groupMatches sorted maxGapDays k (ls.filter (fun l => l.state = k)))
  if L.isEmpty then .leftOnly ls
  else .joined (L.map (fun p => ⟨p.1, p.2.bind (fun i => sorted.get? i)⟩))

/-- One row of `joined[keep_cols]` (lines 386-391). -/
structure Fact0 where
  state : String
  fips : Option String
  population : Option ℤ
  date : ℤ
  casesPer100k : Option ℚ
  deathsPer100k : Option ℚ
  anyPct : Option ℚ
  fullPct : Option ℚ
  boostPct : Option ℚ
deriving DecidableEq, Repr

/-- One joined row restricted to `keep_cols` (lines 386-390): the canonical
week date and rates from the left (cases) side, the percentage columns from
the attached right (vaccination) side. -/
def selRow (jr : JoinedRow) : Fact0 :=
  ⟨jr.left.state, jr.left.fips, jr.left.population, jr.left.date,
   jr.left.casesPer100k, jr.left.deathsPer100k,
   jr.right.bind (fun v => v.anyPct),
   jr.right.bind (fun v => v.fullPct),
   jr.right.bind (fun v => v.boostPct)⟩

/-- Line 391: `fact = joined[keep_cols].copy()`.  When the join returned
only the left-hand columns (empty left input), selecting the vaccination
columns raises a `KeyError`, so the computation fails (`none`). -/
def selectFact : JoinOut → Option (List Fact0)
  | .leftOnly _ => none
  | .joined rows => some (rows.map selRow)

/-- One row of `hes` after the USPS mapping and filter of lines 262-266. -/
structure HesRow where
  state : String
  est : Option ℚ
deriving DecidableEq, Repr

/-- Pandas `GroupBy.mean()` of one group's column: the arithmetic mean of
the non-missing values, `NaN` when there is none. -/
def meanOpt (vs : List (Option ℚ)) : Option ℚ :=
  let xs := vs.reduceOption
  if xs.isEmpty then none else some (xs.sum / xs.length)

/-- Lines 268-272: `hes.groupby("state_usps")["Estimated hesitant"].mean()`
— one output row per distinct state, in ascending key order, holding the
unweighted mean of that state's hesitancy estimates. -/
def hes_state (hs : List HesRow) : List (String × Option ℚ) :=
  (List.insertionSort strLe ((hs.map (fun h => h.state)).dedup)).map
    (fun k => (k, meanOpt ((hs.filter (fun h => h.state = k)).map (fun h => h.est))))

/-- One row of the final fact table, in the column order of lines 408-414. -/
structure FactRow where
  fips : Option String
  state : String
  date : ℤ
  fullPct : Option ℚ
  anyPct : Option ℚ
  boostPct : Option ℚ
  casesPer100k : Option ℚ
  deathsPer100k : Option ℚ
  hesitancy : Option ℚ
  population : Option ℤ
deriving DecidableEq, Repr

/-- Line 396: `fact.merge(hes_state[["state_usps","hesitancy_pct"]],
on="state_usps", how="left")`. -/
def mergeHes (fs : List Fact0) (hs : List (String × Option ℚ)) : List FactRow :=
  fs.flatMap fun f =>
    match hs.filter (fun p => p.1 = f.state) with
    | [] => [⟨f.fips, f.state, f.date, f.fullPct, f.anyPct, f.boostPct,
              f.casesPer100k, f.deathsPer100k, none, f.population⟩]
    | ms => ms.map fun p =>
        ⟨f.fips, f.state, f.date, f.fullPct, f.anyPct, f.boostPct,
         f.casesPer100k, f.deathsPer100k, p.2, f.population⟩

/-- Sort key of line 401, `fact.sort_values(["state_usps","week_end_date"])`
(the ISO date string sorts exactly as the day number). -/
def factKeyLe (a b : FactRow) : Prop :=
  a.state.data < b.state.data ∨ (a.state.data = b.state.data ∧ a.date ≤ b.date)

instance : DecidableRel factKeyLe := fun a b => by
  unfold factKeyLe; infer_instance

/-- Index key of a fact row for the final sort. -/
def factKey (r : FactRow) : Lex (List Char × ℤ) := toLex (r.state.data, r.date)

theorem factKeyLe_iff (a b : FactRow) : factKeyLe a b ↔ factKey a ≤ factKey b := by
  unfold factKeyLe factKey
  constructor
  · intro h
    exact (Prod.Lex.le_iff _ _).mpr h
  · intro h
    exact (Prod.Lex.le_iff _ _).mp h

instance : IsTotal FactRow factKeyLe :=
  ⟨fun a b => by
    rcases le_total (factKey a) (factKey b) with h | h
    · exact Or.inl ((factKeyLe_iff a b).mpr h)
    · exact Or.inr ((factKeyLe_iff b a).mpr h)⟩

instance : IsTrans FactRow factKeyLe :=
  ⟨fun a b c h h' =>
    (factKeyLe_iff a c).mpr
      (le_trans ((factKeyLe_iff a b).mp h) ((factKeyLe_iff b c).mp h'))⟩

def sortFact (fs : List FactRow) : List FactRow := List.insertionSort factKeyLe fs

/-- Lines 403-405: `fact.loc[(fact[c] < 0) | (fact[c] > 100), c] = np.nan`
— an out-of-range percentage becomes missing; `NaN` compares false on both
sides and is left untouched. -/
def dropOutOfRange (v : Option ℚ) : Option ℚ :=
  match v with
  | some x => if x < 0 ∨ 100 < x then none else some x
  | none => none

/-- The loop of lines 403-405 over the four percentage columns. -/
def clampRow (f : FactRow) : FactRow :=
  { f with
    anyPct := dropOutOfRange f.anyPct
    fullPct := dropOutOfRange f.fullPct
    boostPct := dropOutOfRange f.boostPct
    hesitancy := dropOutOfRange f.hesitancy }

/-- The full construction of the state-week fact table (lines 370-414):
population merge and rates, nearest-week vaccination join, column
selection, hesitancy merge, final sort and the out-of-range sweep.  `none`
when the column selection of line 391 raises. -/
def fact (casesSrc : List CasesSrcRow) (vaxSrc : List VaxSrcRow)
    (hesRows : List HesRow) (pop : List PopRow) : Option (List FactRow) :=
  let caseFull := mergePop (cleanCases casesSrc) pop
  let j := left_join_nearest_week caseFull (cleanVax vaxSrc) 3
  (selectFact j).map fun f0 =>
    (sortFact (mergeHes f0 (hes_state hesRows))).map clampRow

/-- The function `pop_weighted_avg` of lines 419-426: `np.average` of the
metric over the rows where both the metric and the weight (population) are
present; `NaN` when no row qualifies.  A missing value is EXCLUDED by the
mask, together with its weight. -/
def pop_weighted_avg (rows : List FactRow) (num : FactRow → Option ℚ) : Option ℚ :=
  let vw := rows.filterMap (fun r =>
    match num r, r.population with
    | some v, some w => some (v, (w : ℚ))
    | _, _ => none)
  if vw.isEmpty then none
  else some ((vw.map (fun p => p.1 * p.2)).sum / (vw.map (fun p => p.2)).sum)

/-- One row of the national weekly table `nat` (lines 428-434). -/
structure NatRow where
  date : ℤ
  fullPct : Option ℚ
  casesPer100k : Option ℚ
  deathsPer100k : Option ℚ
deriving DecidableEq, Repr

/-- Lines 428-434: group the fact table by week-ending date (ascending) and
aggregate the three metrics with `pop_weighted_avg` over each week's rows;
the closing `sort_values("week_end_date")` is the identity because the
group keys are already emitted in ascending order. -/
def nat (facts : List FactRow) : List NatRow :=
  (List.insertionSort (fun a b : ℤ => a ≤ b) ((facts.map (fun f => f.date)).dedup)).map
    fun w =>
      let grp := facts.filter (fun r => r.date = w)
      ⟨w, pop_weighted_avg grp (fun r => r.fullPct),
       pop_weighted_avg grp (fun r => r.casesPer100k),
       pop_weighted_avg grp (fun r => r.deathsPer100k)⟩

/-- Modelled from the spec (section 4.3), for comparison with `hes_state`:
"inner-join county rows to county populations by (state, county-label),
then for each state compute `sum(fraction_i * population_i) /
sum(population_i)` and multiply by 100" — the population-weighted state
hesitancy over one state's (estimate, county population) pairs. -/
def specWeightedHesitancy (counties : List (ℚ × ℚ)) : ℚ :=
  ((counties.map (fun c => c.1 * c.2)).sum / (counties.map (fun c => c.2)).sum) * 100

/-- Modelled from the spec (section 4.6), for comparison with
`pop_weighted_avg`: the population-weighted mean over one week's regional
rows in which a missing regional percentage is "treated as 0 before
weighting" — every row with a known population contributes its weight. -/
def specNationalZeroFill (rows : List FactRow) (num : FactRow → Option ℚ) : Option ℚ :=
  let vw := rows.filterMap (fun r =>
    r.population.map (fun w => ((num r).getD 0, (w : ℚ))))
  if vw.isEmpty then none
  else some ((vw.map (fun p => p.1 * p.2)).sum / (vw.map (fun p => p.2)).sum)

/-- Modelled from the spec (section 4.6), for comparison with the cases
normalization: the cumulative-to-incremental derivation "weekly incremental
count for a region = total[t] - total[t-1] in date order per region; the
first observed week ... defaults to its own total". -/
def specIncrements (totals : List ℚ) : List ℚ :=
  totals.zipWith (fun a b => a - b) (0 :: totals)

/-! ### Structural lemmas about the embedded operations -/

theorem pick_nearest_nil (g : ℕ) (ts : ℤ) : pick_nearest [] g ts = none := rfl

/-- Both branches of the per-group code assign each left row a match that is
a function of its own date and the group's right rows alone (an empty group
assigns `NA`, which `pick_nearest` on an empty frame also yields). -/
theorem groupMatches_eq (s : List VaxRow) (g : ℕ) (k : String)
    (grp : List CaseFull) :
    groupMatches s g k grp
      = grp.map (fun l => (l, pick_nearest (s.filter (fun r => r.state = k)) g l.date)) := by
  unfold groupMatches
  by_cases h : (s.filter (fun r => r.state = k)).isEmpty
  · rw [if_pos h]
    rw [List.isEmpty_iff] at h
    rw [h]
    rfl
  · rw [if_neg h]

theorem groupMatches_fst (s : List VaxRow) (g : ℕ) (k : String)
    (grp : List CaseFull) :
    (groupMatches s g k grp).map Prod.fst = grp := by
  rw [groupMatches_eq]
  induction grp with
  | nil => rfl
  | cons a t ih => simpa using ih

theorem flatMap_congr_mem {κ α : Type} {f f' : κ → List α} :
    ∀ (ks : List κ), (∀ k ∈ ks, f k = f' k) → ks.flatMap f = ks.flatMap f'
  | [], _ => rfl
  | k :: ks, h => by
    rw [List.flatMap_cons, List.flatMap_cons, h k (List.mem_cons_self k ks),
      flatMap_congr_mem ks (fun k' hk' => h k' (List.mem_cons_of_mem k hk'))]

/-- Concatenating a grouped frame over distinct keys that cover every row is
a permutation of the original frame — the groupby/concat of lines 119-154
keeps exactly the left rows. -/
theorem flatMap_filter_key_perm {α κ : Type} [DecidableEq κ] (key : α → κ) :
    ∀ (ks : List κ), ks.Nodup → ∀ (l : List α), (∀ a ∈ l, key a ∈ ks) →
      List.Perm (ks.flatMap (fun k => l.filter (fun a => key a = k))) l
  | [], _, l, hcov => by
    have : l = [] := by
      cases l with
      | nil => rfl
      | cons a t => exact absurd (hcov a (List.mem_cons_self a t)) (List.not_mem_nil _)
    simp [this]
  | k :: ks, hnd, l, hcov => by
    rw [List.flatMap_cons]
    have hnd' : ks.Nodup := (List.nodup_cons.mp hnd).2
    have hk : k ∉ ks := (List.nodup_cons.mp hnd).1
    have htail : ks.flatMap (fun k' => l.filter (fun a => key a = k'))
        = ks.flatMap (fun k' => (l.filter (fun a => ¬(key a = k))).filter (fun a => key a = k')) := by
      refine flatMap_congr_mem ks (fun k' hk' => ?_)
      rw [List.filter_filter]
      have hne : ¬(k' = k) := fun hh => hk (hh ▸ hk')
      refine (List.filter_congr (fun a _ => ?_)).symm
      by_cases ha : key a = k'
      · simp [ha, hne]
      · simp [ha]
    rw [htail]
    have hcov' : ∀ a ∈ l.filter (fun a => ¬(key a = k)), key a ∈ ks := by
      intro a ha
      rcases List.mem_filter.mp ha with ⟨hal, hne⟩
      rcases List.mem_cons.mp (hcov a hal) with h | h
      · exact absurd h (by simpa using hne)
      · exact h
    have ih := flatMap_filter_key_perm key ks hnd' (l.filter (fun a => ¬(key a = k))) hcov'
    refine List.Perm.trans (List.Perm.append_left _ ih) ?_
    have hfp := List.filter_append_perm (fun a => decide (key a = k)) l
    refine List.Perm.trans (List.Perm.append_left _ ?_) hfp
    refine List.Perm.of_eq (List.filter_congr (fun a _ => ?_))
    simp [decide_not]

/-- A left merge against a table with pairwise-distinct keys attaches at
most one row per key. -/
theorem filter_key_le_one {α κ : Type} [DecidableEq κ] (key : α → κ) :
    ∀ (l : List α), (l.map key).Nodup → ∀ (k : κ),
      l.filter (fun a => key a = k) = [] ∨ ∃ a, l.filter (fun a => key a = k) = [a]
  | [], _, k => Or.inl rfl
  | a :: t, hnd, k => by
    rw [List.map_cons, List.nodup_cons] at hnd
    obtain ⟨hnmem, hnd'⟩ := hnd
    by_cases ha : key a = k
    · right
      refine ⟨a, ?_⟩
      rw [List.filter_cons_of_pos (by simpa using ha)]
      have ht : t.filter (fun b => key b = k) = [] := by
        rw [List.filter_eq_nil_iff]
        intro b hb
        simp only [decide_eq_true_eq]
        intro hbk
        apply hnmem
        rw [ha, ← hbk]
        exact List.mem_map_of_mem key hb
      rw [ht]
    · rw [List.filter_cons_of_neg (by simpa using ha)]
      exact filter_key_le_one key t hnd' k

/-- The population merge of line 300 neither drops nor duplicates cases
rows when the population table has one row per state, and it never changes
a row's (state, week) key. -/
theorem mergePop_keys (pop : List PopRow)
    (hpop : (pop.map (fun p => p.state)).Nodup) :
    ∀ (cs : List CaseRow),
      (mergePop cs pop).map (fun c => (c.state, c.date))
        = cs.map (fun c => (c.state, c.date))
  | [] => rfl
  | c :: cs => by
    have htail := mergePop_keys pop hpop cs
    unfold mergePop at htail ⊢
    rw [List.flatMap_cons, List.map_append, htail, List.map_cons]
    rcases filter_key_le_one (fun p : PopRow => p.state) pop hpop c.state with h | ⟨p, h⟩
    · rw [h]
      rfl
    · rw [h]
      rfl

/-- The hesitancy merge of line 396 neither drops nor duplicates fact rows
when the hesitancy table has one row per state, and it never changes a
row's (state, week) key. -/
theorem mergeHes_keys (hs : List (String × Option ℚ))
    (hnd : (hs.map Prod.fst).Nodup) :
    ∀ (fs : List Fact0),
      (mergeHes fs hs).map (fun r => (r.state, r.date))
        = fs.map (fun f => (f.state, f.date))
  | [] => rfl
  | f :: fs => by
    have htail := mergeHes_keys hs hnd fs
    unfold mergeHes at htail ⊢
    rw [List.flatMap_cons, List.map_append, htail, List.map_cons]
    rcases filter_key_le_one Prod.fst hs hnd f.state with h | ⟨p, h⟩
    · rw [h]
      rfl
    · rw [h]
      rfl

/-- The `groupby` output of lines 268-272 has one row per distinct state. -/
theorem hes_state_keys (hsrc : List HesRow) :
    (hes_state hsrc).map Prod.fst
      = List.insertionSort strLe ((hsrc.map (fun h => h.state)).dedup) := by
  unfold hes_state
  rw [List.map_map]
  induction List.insertionSort strLe ((hsrc.map (fun h => h.state)).dedup) with
  | nil => rfl
  | cons a t ih => simpa using ih

theorem hes_state_keys_nodup (hsrc : List HesRow) :
    ((hes_state hsrc).map Prod.fst).Nodup := by
  rw [hes_state_keys]
  exact ((List.perm_insertionSort strLe
    ((hsrc.map (fun h => h.state)).dedup)).symm).nodup (List.nodup_dedup _)

/-- The sorted distinct left group keys: no duplicates, and they cover the
state of every left row. -/
theorem leftKeys_nodup (ls : List CaseFull) : (leftKeys ls).Nodup := by
  unfold leftKeys
  exact ((List.perm_insertionSort strLe _).symm).nodup (List.nodup_dedup _)

theorem mem_leftKeys (ls : List CaseFull) (l : CaseFull) (hl : l ∈ ls) :
    l.state ∈ leftKeys ls :=
  (List.perm_insertionSort strLe _).mem_iff.mpr
    (List.mem_dedup.mpr (List.mem_map_of_mem (fun c => c.state) hl))

/-- Two permuted frames, both sorted by the same key order, with
pairwise-distinct keys, are identical — sorting by a duplicate-free index
is deterministic regardless of the input row order. -/
theorem eq_of_perm_sorted_nodup_keys {α κ : Type} [LinearOrder κ] (key : α → κ) :
    ∀ (l₁ l₂ : List α), List.Perm l₁ l₂ →
      l₁.Sorted (fun a b => key a ≤ key b) → l₂.Sorted (fun a b => key a ≤ key b) →
      (l₁.map key).Nodup → l₁ = l₂
  | [], l₂, hp, _, _, _ => (hp.nil_eq)
  | a :: t₁, [], hp, _, _, _ => absurd hp (by simp)
  | a :: t₁, b :: t₂, hp, hs₁, hs₂, hnd => by
    have hmem_a : a ∈ b :: t₂ := hp.mem_iff.mp (List.mem_cons_self a t₁)
    have hmem_b : b ∈ a :: t₁ := hp.mem_iff.mpr (List.mem_cons_self b t₂)
    have hs₁' := List.sorted_cons.mp hs₁
    have hs₂' := List.sorted_cons.mp hs₂
    rw [List.map_cons, List.nodup_cons] at hnd
    have hab : a = b := by
      rcases List.mem_cons.mp hmem_a with h | h
      · exact h
      · rcases List.mem_cons.mp hmem_b with h' | h'
        · exact h'.symm
        · have h1 : key a ≤ key b := hs₁'.1 b h'
          have h2 : key b ≤ key a := hs₂'.1 a h
          have hkey : key a = key b := le_antisymm h1 h2
          exact absurd (hkey ▸ List.mem_map_of_mem key h') hnd.1
    subst hab
    rw
      [eq_of_perm_sorted_nodup_keys key t₁ t₂ hp.cons_inv hs₁'.2 hs₂'.2 hnd.2]

/-- Distinct (state, date) pairs give distinct sort keys. -/
theorem vaxKey_nodup_of_pairs (rs : List VaxRow)
    (hnd : (rs.map (fun r => (r.state, r.date))).Nodup) :
    (rs.map vaxKey).Nodup := by
  have heq : rs.map vaxKey
      = (rs.map (fun r => (r.state, r.date))).map
          (fun p : String × ℤ => toLex (p.1.data, p.2)) := by
    rw [List.map_map]
    rfl
  rw [heq]
  refine hnd.map ?_
  intro p q hpq
  have hpq' : (p.1.data, p.2) = (q.1.data, q.2) := toLex.injective hpq
  rw [Prod.mk.injEq] at hpq'
  exact Prod.ext (String.ext hpq'.1) hpq'.2

theorem sortVax_sorted_key (rs : List VaxRow) :
    (sortVax rs).Sorted (fun a b => vaxKey a ≤ vaxKey b) := by
  have h := List.sorted_insertionSort vaxKeyLe rs
  exact h.imp (fun hab => (vaxKeyLe_iff _ _).mp hab)

/-- Shuffling the right series does not change the sorted frame when its
(state, date) index has no duplicate entries. -/
theorem sortVax_perm_eq (rs rs' : List VaxRow) (hp : List.Perm rs' rs)
    (hnd : (rs.map (fun r => (r.state, r.date))).Nodup) :
    sortVax rs' = sortVax rs := by
  have hperm : List.Perm (sortVax rs') (sortVax rs) :=
    ((List.perm_insertionSort vaxKeyLe rs').trans hp).trans
      (List.perm_insertionSort vaxKeyLe rs).symm
  refine eq_of_perm_sorted_nodup_keys vaxKey (sortVax rs') (sortVax rs) hperm
    (sortVax_sorted_key rs') (sortVax_sorted_key rs) ?_
  have hnd' : (rs'.map (fun r => (r.state, r.date))).Nodup :=
    (hp.map (fun r => (r.state, r.date))).symm.nodup hnd
  exact ((List.perm_insertionSort vaxKeyLe rs').map vaxKey).symm.nodup
    (vaxKey_nodup_of_pairs rs' hnd')

/-- The concatenated per-group frame `L` of lines 115-154. -/
def joinL (ls : List CaseFull) (rs : List VaxRow) (g : ℕ) :
    List (CaseFull × Option ℕ) :=
  (leftKeys ls).flatMap
    (fun k => groupMatches (sortVax rs) g k (ls.filter (fun l => l.state = k)))

theorem left_join_eq (ls : List CaseFull) (rs : List VaxRow) (g : ℕ) :
    left_join_nearest_week ls rs g =
      if (joinL ls rs g).isEmpty then .leftOnly ls
      else .joined ((joinL ls rs g).map
        (fun p => ⟨p.1, p.2.bind (fun i => (sortVax rs).get? i)⟩)) := rfl

/-- The concatenated frame holds exactly the left rows, once each. -/
theorem joinL_fst_perm (ls : List CaseFull) (rs : List VaxRow) (g : ℕ) :
    List.Perm ((joinL ls rs g).map Prod.fst) ls := by
  unfold joinL
  rw [List.map_flatMap]
  have heq : (leftKeys ls).flatMap
        (fun k => (groupMatches (sortVax rs) g k (ls.filter (fun l => l.state = k))).map Prod.fst)
      = (leftKeys ls).flatMap (fun k => ls.filter (fun l => l.state = k)) :=
    flatMap_congr_mem _ (fun k _ => groupMatches_fst _ _ _ _)
  rw [heq]
  exact flatMap_filter_key_perm (fun l : CaseFull => l.state) (leftKeys ls)
    (leftKeys_nodup ls) ls (fun l hl => mem_leftKeys ls l hl)

theorem joinL_ne_nil (ls : List CaseFull) (rs : List VaxRow) (g : ℕ)
    (h : ls ≠ []) : joinL ls rs g ≠ [] := by
  intro hL
  have hperm := joinL_fst_perm ls rs g
  rw [hL, List.map_nil] at hperm
  exact h (List.nil_perm.mp hperm)

/-- Each left row appears in the concatenated frame paired with the match
computed from its own date and its state's right-series rows alone. -/
theorem mem_joinL (ls : List CaseFull) (rs : List VaxRow) (g : ℕ)
    (l : CaseFull) (hl : l ∈ ls) :
    (l, pick_nearest ((sortVax rs).filter (fun r => r.state = l.state)) g l.date)
      ∈ joinL ls rs g := by
  unfold joinL
  refine List.mem_flatMap.mpr ⟨l.state, mem_leftKeys ls l hl, ?_⟩
  rw [groupMatches_eq]
  exact List.mem_map.mpr ⟨l, List.mem_filter.mpr ⟨hl, by simp⟩, rfl⟩

theorem join_rows_eq (ls : List CaseFull) (rs : List VaxRow) (g : ℕ)
    (rows : List JoinedRow)
    (h : left_join_nearest_week ls rs g = .joined rows) :
    rows = (joinL ls rs g).map
      (fun p => ⟨p.1, p.2.bind (fun i => (sortVax rs).get? i)⟩) := by
  rw [left_join_eq] at h
  by_cases hL : (joinL ls rs g).isEmpty
  · rw [if_pos hL] at h
    cases h
  · rw [if_neg hL] at h
    exact (JoinOut.joined.inj h).symm

theorem fact_eq_some (cs : List CasesSrcRow) (vs : List VaxSrcRow)
    (hsrc : List HesRow) (pp : List PopRow) (F : List FactRow)
    (hF : fact cs vs hsrc pp = some F) :
    ∃ rows, left_join_nearest_week (mergePop (cleanCases cs) pp) (cleanVax vs) 3
        = .joined rows ∧
      F = (sortFact (mergeHes (rows.map selRow) (hes_state hsrc))).map clampRow := by
  simp only [fact] at hF
  cases hj : left_join_nearest_week (mergePop (cleanCases cs) pp) (cleanVax vs) 3 with
  | leftOnly rows0 =>
    rw [hj] at hF
    simp [selectFact] at hF
  | joined rows =>
    rw [hj] at hF
    refine ⟨rows, rfl, ?_⟩
    simp only [selectFact, Option.map_some] at hF
    exact (Option.some.inj hF).symm

/-! ### Claim theorems -/

/-- C7: in the nearest-date join, a right observation whose date differs
from the left date by exactly `max_gap_days` is matched, while one whose
date differs by `max_gap_days + 1` days is not matched and that left row's
right-hand fields are missing. -/
theorem C7_tolerance_boundary (l : CaseFull) (r : VaxRow) (g : ℕ)
    (hs : r.state = l.state) :
    ((r.date - l.date).natAbs = g →
      left_join_nearest_week [l] [r] g = .joined [⟨l, some r⟩]) ∧
    ((r.date - l.date).natAbs = g + 1 →
      left_join_nearest_week [l] [r] g = .joined [⟨l, none⟩]) := by
  have hsv : sortVax [r] = [r] := rfl
  have hJL : joinL [l] [r] g = [(l, pick_nearest [r] g l.date)] := by
    unfold joinL leftKeys
    simp only [List.map_cons, List.map_nil, List.dedup_nil, List.dedup_cons_of_not_mem,
      List.not_mem_nil, not_false_iff, List.insertionSort, List.orderedInsert,
      List.flatMap_cons, List.flatMap_nil, List.append_nil]
    rw [groupMatches_eq, hsv]
    have hfl : ([l].filter (fun x => x.state = l.state)) = [l] := by simp
    have hfr : ([r].filter (fun x => x.state = l.state)) = [r] := by simp [hs]
    rw [hfl, hfr]
    rfl
  constructor
  · intro hd
    rw [left_join_eq, hJL]
    have hpick : pick_nearest [r] g l.date = some 0 := by
      simp [pick_nearest, idxminAux, hd]
    rw [hpick]
    rfl
  · intro hd
    rw [left_join_eq, hJL]
    have hpick : pick_nearest [r] g l.date = none := by
      simp [pick_nearest, idxminAux, hd]
    rw [hpick]
    rfl

/-- Witness for C7 at the spec's scenario: a report 3 days before the left
week matches at tolerance 3; a report 4 days after does not. -/
theorem C7_tolerance_boundary_witness :
    (left_join_nearest_week [⟨"TX", 3, none, none, none, some "48", none, none⟩]
        [⟨"TX", 0, none, some 40, none⟩] 3
      = .joined [⟨⟨"TX", 3, none, none, none, some "48", none, none⟩,
                  some ⟨"TX", 0, none, some 40, none⟩⟩]) ∧
    (left_join_nearest_week [⟨"TX", 3, none, none, none, some "48", none, none⟩]
        [⟨"TX", 7, none, some 40, none⟩] 3
      = .joined [⟨⟨"TX", 3, none, none, none, some "48", none, none⟩, none⟩]) :=
  ⟨(C7_tolerance_boundary ⟨"TX", 3, none, none, none, some "48", none, none⟩
      ⟨"TX", 0, none, some 40, none⟩ 3 rfl).1 (by decide),
   (C7_tolerance_boundary ⟨"TX", 3, none, none, none, some "48", none, none⟩
      ⟨"TX", 7, none, some 40, none⟩ 3 rfl).2 (by decide)⟩

/-- C10: an empty left table makes `left_join_nearest_week` return a copy
of the left table without the right-hand columns, while any non-empty left
table gets the merged column set, unmatched rows carrying missing
right-hand values. -/
theorem C10_empty_left_no_right_columns (ls : List CaseFull) (rs : List VaxRow)
    (g : ℕ) (hne : ls ≠ []) :
    (left_join_nearest_week [] rs g = .leftOnly []) ∧
    (∃ rows, left_join_nearest_week ls rs g = .joined rows) ∧
    (∃ rows, left_join_nearest_week ls [] g = .joined rows ∧
      ∀ jr ∈ rows, jr.right = none) := by
  have hne1 : ¬((joinL ls rs g).isEmpty = true) := fun hE =>
    joinL_ne_nil ls rs g hne (List.isEmpty_iff.mp hE)
  have hne2 : ¬((joinL ls [] g).isEmpty = true) := fun hE =>
    joinL_ne_nil ls [] g hne (List.isEmpty_iff.mp hE)
  refine ⟨rfl, ?_, ?_⟩
  · exact ⟨_, by rw [left_join_eq, if_neg hne1]⟩
  · refine ⟨(joinL ls [] g).map
      (fun p => ⟨p.1, p.2.bind (fun i => (sortVax []).get? i)⟩), ?_, ?_⟩
    · rw [left_join_eq, if_neg hne2]
    · intro jr hjr
      obtain ⟨p, hp, hjr'⟩ := List.mem_map.mp hjr
      obtain ⟨k, _, hpk⟩ := List.mem_flatMap.mp hp
      rw [groupMatches_eq] at hpk
      obtain ⟨l', _, hpl⟩ := List.mem_map.mp hpk
      have hp2 : p.2 = none := by
        rw [← hpl]
        rfl
      rw [← hjr']
      simp [hp2]

/-- Witness for C10 at a one-row left table. -/
theorem C10_empty_left_no_right_columns_witness :
    (left_join_nearest_week [] [⟨"AL", 0, none, some 10, none⟩] 3 = .leftOnly []) ∧
    (∃ rows, left_join_nearest_week [⟨"AL", 0, none, none, none, some "01", none, none⟩]
        [⟨"AL", 0, none, some 10, none⟩] 3 = .joined rows) ∧
    (∃ rows, left_join_nearest_week [⟨"AL", 0, none, none, none, some "01", none, none⟩]
        [] 3 = .joined rows ∧ ∀ jr ∈ rows, jr.right = none) :=
  C10_empty_left_no_right_columns
    [⟨"AL", 0, none, none, none, some "01", none, none⟩]
    [⟨"AL", 0, none, some 10, none⟩] 3 (by decide)

/-- C1 (code bug): at this input the left row for region AL has an
in-tolerance same-region right row (AL, date 0, full 77), yet the join
attaches the fields of the AK row — the group-local match position is
resolved against the GLOBAL sorted right table (lines 137-148 store
positions in `r_sub` after `reset_index`, lines 156-157 merge them against
`r.reset_index().reset_index()`), so the attached right-hand fields are not
those of the nearest same-region row. -/
theorem C1_wrong_region_fields_attached :
    (left_join_nearest_week
        [⟨"AL", 0, none, none, none, some "01", none, none⟩]
        [⟨"AK", 0, none, some 10, none⟩, ⟨"AL", 0, none, some 77, none⟩] 3
      = .joined [⟨⟨"AL", 0, none, none, none, some "01", none, none⟩,
                  some ⟨"AK", 0, none, some 10, none⟩⟩]) ∧
    (("AK" : String) ≠ "AL") ∧
    (((0 : ℤ) - 0).natAbs ≤ 3) ∧
    (some (⟨"AK", 0, none, some 10, none⟩ : VaxRow)
      ≠ some ⟨"AL", 0, none, some 77, none⟩) := by
  refine ⟨by decide, by decide, by decide, by decide⟩

/-- C5 counterexample: two distinct left rows of the same region both
receive the fields of the single right observation — there is no
first-come-first-served consumption of right rows. -/
theorem C5_right_row_shared_cex :
    (left_join_nearest_week
        [⟨"AL", 0, none, none, none, some "01", none, none⟩,
         ⟨"AL", 1, none, none, none, some "01", none, none⟩]
        [⟨"AL", 0, none, some 77, none⟩] 3
      = .joined
        [⟨⟨"AL", 0, none, none, none, some "01", none, none⟩,
          some ⟨"AL", 0, none, some 77, none⟩⟩,
         ⟨⟨"AL", 1, none, none, none, some "01", none, none⟩,
          some ⟨"AL", 0, none, some 77, none⟩⟩]) ∧
    ((⟨"AL", 0, none, none, none, some "01", none, none⟩ : CaseFull)
      ≠ ⟨"AL", 1, none, none, none, some "01", none, none⟩) := by
  refine ⟨by decide, by decide⟩

/-- C5 amended: each left row is matched to at most one right row, chosen
from the left row's own date and the right series alone — independent of
every other left row, so several left rows may be assigned the same right
observation. -/
theorem C5_left_rows_match_independently (ls : List CaseFull)
    (rs : List VaxRow) (g : ℕ) (rows : List JoinedRow) (l : CaseFull)
    (hl : l ∈ ls)
    (hrows : left_join_nearest_week ls rs g = .joined rows) :
    (⟨l, (pick_nearest ((sortVax rs).filter (fun r => r.state = l.state)) g l.date).bind
        (fun i => (sortVax rs).get? i)⟩ : JoinedRow) ∈ rows := by
  rw [join_rows_eq ls rs g rows hrows]
  exact List.mem_map.mpr ⟨_, mem_joinL ls rs g l hl, rfl⟩

/-- Witness for the amended C5 at the counterexample input: the second left
row's output is determined by its own date alone. -/
theorem C5_left_rows_match_independently_witness :
    (⟨⟨"AL", 1, none, none, none, some "01", none, none⟩,
      (pick_nearest ((sortVax [⟨"AL", 0, none, some 77, none⟩]).filter
          (fun r => r.state = "AL")) 3 1).bind
        (fun i => (sortVax [⟨"AL", 0, none, some 77, none⟩]).get? i)⟩ : JoinedRow)
      ∈ [⟨⟨"AL", 0, none, none, none, some "01", none, none⟩,
          some ⟨"AL", 0, none, some 77, none⟩⟩,
         ⟨⟨"AL", 1, none, none, none, some "01", none, none⟩,
          some ⟨"AL", 0, none, some 77, none⟩⟩] :=
  C5_left_rows_match_independently
    [⟨"AL", 0, none, none, none, some "01", none, none⟩,
     ⟨"AL", 1, none, none, none, some "01", none, none⟩]
    [⟨"AL", 0, none, some 77, none⟩] 3 _
    ⟨"AL", 1, none, none, none, some "01", none, none⟩
    (by decide) (by decide)

/-- C8 counterexample: fed cumulative running totals [100, 150, 170] for
one region over three weeks, the pipeline's weekly count column keeps the
raw totals — no `total[t] - total[t-1]` differencing happens anywhere — so
the weekly counts are not the spec's increments [100, 50, 20]. -/
theorem C8_running_totals_not_differenced_cex :
    ((cleanCases [⟨some "CA", some 0, some 100, none⟩,
        ⟨some "CA", some 7, some 150, none⟩,
        ⟨some "CA", some 14, some 170, none⟩]).map (fun r => r.newCases)
      = [some 100, some 150, some 170]) ∧
    ((mergePop (cleanCases [⟨some "CA", some 0, some 100, none⟩,
        ⟨some "CA", some 7, some 150, none⟩,
        ⟨some "CA", some 14, some 170, none⟩]) [⟨"CA", 100000⟩]).map
          (fun r => r.newCases)
      = [some 100, some 150, some 170]) ∧
    (specIncrements [100, 150, 170] = [100, 50, 20]) ∧
    ([some (100 : ℤ), some 150, some 170] ≠ [some 100, some 50, some 20]) := by
  refine ⟨by decide, by decide, ?_, by decide⟩
  norm_num [specIncrements]

/-- C8 amended: the weekly count column of the cleaned cases table is the
source's count cell unchanged, for exactly the rows that survive the
state/date dropna — the pipeline applies no cumulative-to-incremental
derivation. -/
theorem C8_weekly_counts_passthrough (rows : List CasesSrcRow) :
    (cleanCases rows).map (fun r => r.newCases)
      = (rows.filter (fun r => r.state.isSome && r.date.isSome)).map
          (fun r => r.newCases) := by
  induction rows with
  | nil => rfl
  | cons r t ih =>
    cases hs : r.state <;> cases hd : r.date <;>
      simp [cleanCases, List.filterMap_cons, List.filter_cons, hs, hd] <;>
      simpa [cleanCases] using ih

/-- C9: the sweep of lines 403-405 replaces an out-of-range percentage by
missing — it does not clamp and does not raise — and consequently every
percentage value present in the output fact table lies within [0, 100]. -/
theorem C9_pct_out_of_range_to_missing (cs : List CasesSrcRow)
    (vs : List VaxSrcRow) (hsrc : List HesRow) (pp : List PopRow)
    (F : List FactRow) (hF : fact cs vs hsrc pp = some F) :
    (∀ v : ℚ, (v < 0 ∨ 100 < v) → dropOutOfRange (some v) = none) ∧
    (∀ r ∈ F, ∀ x : ℚ,
      (r.fullPct = some x ∨ r.anyPct = some x ∨ r.boostPct = some x ∨
        r.hesitancy = some x) →
      0 ≤ x ∧ x ≤ 100) := by
  constructor
  · intro v hv
    simp [dropOutOfRange, hv]
  · obtain ⟨rows, hj, hFeq⟩ := fact_eq_some cs vs hsrc pp F hF
    subst hFeq
    intro r hr x hx
    obtain ⟨r', hr', hcl⟩ := List.mem_map.mp hr
    have key : ∀ v : Option ℚ, dropOutOfRange v = some x → 0 ≤ x ∧ x ≤ 100 := by
      intro v hv
      cases v with
      | none => cases hv
      | some y =>
        simp only [dropOutOfRange] at hv
        by_cases hy : y < 0 ∨ 100 < y
        · rw [if_pos hy] at hv
          cases hv
        · rw [if_neg hy] at hv
          obtain rfl : y = x := Option.some.inj hv
          push_neg at hy
          exact hy
    subst hcl
    rcases hx with h | h | h | h
    · exact key r'.fullPct h
    · exact key r'.anyPct h
    · exact key r'.boostPct h
    · exact key r'.hesitancy h

/-- Witness for C9: a concrete run whose single fact row carries a present
full-series percentage of 50, certified inside [0, 100]. -/
theorem C9_pct_out_of_range_to_missing_witness : 0 ≤ (50 : ℚ) ∧ (50 : ℚ) ≤ 100 :=
  (C9_pct_out_of_range_to_missing
      [⟨some "AL", some 0, none, none⟩]
      [⟨some "AL", some 0, none, some 50, none⟩] [] []
      [⟨some "01", "AL", 0, some 50, none, none, none, none, none, none⟩]
      (by decide)).2
    ⟨some "01", "AL", 0, some 50, none, none, none, none, none, none⟩
    (by decide) 50 (Or.inl rfl)

/-- Filtering a keyed table built by mapping over distinct keys selects the
one row built from the requested key, when present. -/
theorem filter_map_mk_by_key {κ β : Type} [DecidableEq κ] (mk : κ → β)
    (keyOf : β → κ) (hmk : ∀ k, keyOf (mk k) = k) :
    ∀ (ks : List κ), ks.Nodup → ∀ k,
      (ks.map mk).filter (fun b => keyOf b = k)
        = if k ∈ ks then [mk k] else []
  | [], _, k => by simp
  | k' :: ks, hnd, k => by
    rw [List.nodup_cons] at hnd
    rw [List.map_cons, List.filter_cons]
    by_cases hk : k' = k
    · subst hk
      rw [if_pos (by simp [hmk]), if_pos (List.mem_cons_self k' ks)]
      have ht : (ks.map mk).filter (fun b => keyOf b = k') = [] := by
        rw [filter_map_mk_by_key mk keyOf hmk ks hnd.2 k', if_neg hnd.1]
      rw [ht]
    · rw [if_neg (by simp [hmk, hk])]
      rw [filter_map_mk_by_key mk keyOf hmk ks hnd.2 k]
      by_cases hmem : k ∈ ks
      · rw [if_pos hmem, if_pos (List.mem_cons_of_mem k' hmem)]
      · rw [if_neg hmem, if_neg (by
          intro hc
          rcases List.mem_cons.mp hc with hc | hc
          · exact hk hc.symm
          · exact hmem hc)]

/-- The lookup behaviour of the `hes_state` table: it holds the unweighted
per-state mean for exactly the states present in the input. -/
theorem hes_state_filter (hsrc : List HesRow) (k : String) :
    (hes_state hsrc).filter (fun p => p.1 = k)
      = if k ∈ hsrc.map (fun h => h.state)
        then [(k, meanOpt ((hsrc.filter (fun h => h.state = k)).map (fun h => h.est)))]
        else [] := by
  unfold hes_state
  rw [filter_map_mk_by_key
    (fun k' => (k', meanOpt ((hsrc.filter (fun h => h.state = k')).map (fun h => h.est))))
    Prod.fst (fun _ => rfl) _
    (((List.perm_insertionSort strLe _).symm).nodup (List.nodup_dedup _)) k]
  by_cases hmem : k ∈ hsrc.map (fun h => h.state)
  · rw [if_pos hmem,
      if_pos ((List.perm_insertionSort strLe _).mem_iff.mpr (List.mem_dedup.mpr hmem))]
  · rw [if_neg hmem, if_neg (fun hc =>
      hmem (List.mem_dedup.mp ((List.perm_insertionSort strLe _).mem_iff.mp hc)))]

/-- Every row produced by the hesitancy merge of line 396 carries the
unweighted per-state mean (or missing when its state has no estimates). -/
theorem mergeHes_hesitancy (fs : List Fact0) (hsrc : List HesRow)
    (r' : FactRow) (hr : r' ∈ mergeHes fs (hes_state hsrc)) :
    r'.hesitancy
      = (if r'.state ∈ hsrc.map (fun h => h.state)
         then meanOpt ((hsrc.filter (fun h => h.state = r'.state)).map (fun h => h.est))
         else none) := by
  obtain ⟨f, _, hr'⟩ := List.mem_flatMap.mp hr
  rw [hes_state_filter hsrc f.state] at hr'
  by_cases hmem : f.state ∈ hsrc.map (fun h => h.state)
  · rw [if_pos hmem] at hr'
    simp only [List.map_cons, List.map_nil, List.mem_singleton] at hr'
    subst hr'
    simp [hmem]
  · rw [if_neg hmem] at hr'
    simp only [List.mem_singleton] at hr'
    subst hr'
    simp [hmem]

/-- C4 counterexample: for one state with two county-level estimate rows
(1/10 and 3/10) and county populations 1 and 3, the source computes the
unweighted mean 1/5, while the claim's population-weighted formula
`sum(fraction_i * population_i) / sum(population_i) * 100` gives 25 — the
code performs no county-population join, no weighting and no rescaling. -/
theorem C4_hesitancy_unweighted_cex :
    (hes_state [⟨"AL", some (1/10)⟩, ⟨"AL", some (3/10)⟩]
      = [("AL", some (1/5))]) ∧
    (specWeightedHesitancy [(1/10, 1), (3/10, 3)] = 25) ∧
    ((1/5 : ℚ) ≠ 25) := by
  refine ⟨?_, ?_, by norm_num⟩
  · norm_num [hes_state, meanOpt]
    rintro ⟨⟩
  · norm_num [specWeightedHesitancy]

/-- C4 amended: the hesitancy percentage attached to every output fact row
is the range-swept UNWEIGHTED arithmetic mean of that state's hesitancy
estimates — counties are not joined to populations and no weighting or
rescaling by 100 occurs. -/
theorem C4_state_hesitancy_unweighted (cs : List CasesSrcRow)
    (vs : List VaxSrcRow) (hsrc : List HesRow) (pp : List PopRow)
    (F : List FactRow) (hF : fact cs vs hsrc pp = some F)
    (r : FactRow) (hr : r ∈ F) :
    r.hesitancy = dropOutOfRange
      (if r.state ∈ hsrc.map (fun h => h.state)
       then meanOpt ((hsrc.filter (fun h => h.state = r.state)).map (fun h => h.est))
       else none) := by
  obtain ⟨rows, hj, hFeq⟩ := fact_eq_some cs vs hsrc pp F hF
  subst hFeq
  obtain ⟨r', hr', hcl⟩ := List.mem_map.mp hr
  subst hcl
  have hr'' : r' ∈ mergeHes (rows.map selRow) (hes_state hsrc) :=
    (List.perm_insertionSort factKeyLe _).mem_iff.mp hr'
  have hhes := mergeHes_hesitancy (rows.map selRow) hsrc r' hr''
  show dropOutOfRange r'.hesitancy
    = dropOutOfRange
      (if r'.state ∈ hsrc.map (fun h => h.state)
       then meanOpt ((hsrc.filter (fun h => h.state = r'.state)).map (fun h => h.est))
       else none)
  rw [hhes]

/-- Witness for the amended C4: a run whose hesitancy table names only AK,
so the AL fact row's hesitancy is the (empty, hence missing) AL mean. -/
theorem C4_state_hesitancy_unweighted_witness :
    (⟨some "01", "AL", 0, none, none, none, none, none, none, none⟩ : FactRow).hesitancy
      = dropOutOfRange
        (if "AL" ∈ ([⟨"AK", some 20⟩] : List HesRow).map (fun h => h.state)
         then meanOpt ((([⟨"AK", some 20⟩] : List HesRow).filter
            (fun h => h.state = "AL")).map (fun h => h.est))
         else none) :=
  C4_state_hesitancy_unweighted
    [⟨some "AL", some 0, none, none⟩] [] [⟨"AK", some 20⟩] []
    [⟨some "01", "AL", 0, none, none, none, none, none, none, none⟩]
    (by decide)
    ⟨some "01", "AL", 0, none, none, none, none, none, none, none⟩
    (by decide)

/-- Every row of the national table aggregates exactly its week's fact rows
with `pop_weighted_avg`. -/
theorem nat_row_fullPct (facts : List FactRow) (row : NatRow)
    (hrow : row ∈ nat facts) :
    row.fullPct = pop_weighted_avg (facts.filter (fun r => r.date = row.date))
      (fun r => r.fullPct) := by
  simp only [nat] at hrow
  obtain ⟨w', _, heq⟩ := List.mem_map.mp hrow
  subst heq
  rfl

/-- C3 amended: the national full-series percentage for a week is the
population-weighted mean over exactly the rows whose percentage AND
population are present; for a week with two such regions it is
`(v1*p1 + v2*p2)/(p1 + p2)`, and a region whose percentage is missing is
EXCLUDED from both numerator and denominator (its weight drops out), not
zero-filled. -/
theorem C3_national_weighted_mean (facts : List FactRow) (w : ℤ)
    (r1 r2 : FactRow)
    (hgrp : facts.filter (fun r => r.date = w) = [r1, r2]) :
    (∀ v1 p1 v2 p2, r1.fullPct = some v1 → r1.population = some p1 →
      r2.fullPct = some v2 → r2.population = some p2 →
      ∀ row ∈ nat facts, row.date = w →
        row.fullPct = some ((v1 * p1 + v2 * p2) / ((p1 : ℚ) + (p2 : ℚ)))) ∧
    (∀ v2 p2, r1.fullPct = none →
      r2.fullPct = some v2 → r2.population = some p2 →
      ∀ row ∈ nat facts, row.date = w →
        row.fullPct = some ((v2 * p2) / (p2 : ℚ))) := by
  constructor
  · intro v1 p1 v2 p2 h1 hp1 h2 hp2 row hrow hrw
    have hval := nat_row_fullPct facts row hrow
    rw [hrw, hgrp] at hval
    rw [hval]
    simp only [pop_weighted_avg, List.filterMap_cons, List.filterMap_nil,
      h1, hp1, h2, hp2]
    norm_num
  · intro v2 p2 h1 h2 hp2 row hrow hrw
    have hval := nat_row_fullPct facts row hrow
    rw [hrw, hgrp] at hval
    rw [hval]
    simp only [pop_weighted_avg, List.filterMap_cons, List.filterMap_nil,
      h1, h2, hp2]
    norm_num

/-- Witness for the amended C3: two regions with populations 1 and 3 and
values 30 and 70 give the national value (30·1 + 70·3)/(1 + 3) = 60. -/
theorem C3_national_weighted_mean_witness :
    (⟨0, some 60, none, none⟩ : NatRow).fullPct
      = some ((30 * 1 + 70 * 3) / ((1 : ℚ) + (3 : ℚ))) := by
  have h := (C3_national_weighted_mean
      [⟨none, "AK", 0, some 30, none, none, none, none, none, some 1⟩,
       ⟨none, "AL", 0, some 70, none, none, none, none, none, some 3⟩] 0
      ⟨none, "AK", 0, some 30, none, none, none, none, none, some 1⟩
      ⟨none, "AL", 0, some 70, none, none, none, none, none, some 3⟩
      (by decide)).1 30 1 70 3 rfl rfl rfl rfl
  refine h ⟨0, some 60, none, none⟩ ?_ rfl
  have hnat : nat [⟨none, "AK", 0, some 30, none, none, none, none, none, some 1⟩,
       ⟨none, "AL", 0, some 70, none, none, none, none, none, some 3⟩]
      = [⟨0, some 60, none, none⟩] := by
    norm_num [nat, pop_weighted_avg, List.filterMap_cons, List.filterMap_nil,
      List.insertionSort, List.orderedInsert, List.dedup_cons_of_mem,
      List.dedup_cons_of_not_mem]
    intro hc
    exact Option.noConfusion hc
  rw [hnat]
  exact List.mem_singleton.mpr rfl

/-- C3 counterexample: in a week with regions AK (population 1, full-series
percentage missing) and AL (population 1, value 50), the pipeline's
national value is 50 — the missing region is excluded together with its
weight — whereas the claim's zero-fill-before-weighting formula gives
(0·1 + 50·1)/(1 + 1) = 25. -/
theorem C3_missing_not_zero_filled_cex :
    (fact [⟨some "AK", some 0, none, none⟩, ⟨some "AL", some 0, none, none⟩]
        [⟨some "AL", some 0, none, some 50, none⟩] [] [⟨"AK", 1⟩, ⟨"AL", 1⟩]
      = some [⟨some "02", "AK", 0, none, none, none, none, none, none, some 1⟩,
              ⟨some "01", "AL", 0, some 50, none, none, none, none, none, some 1⟩]) ∧
    (nat [⟨some "02", "AK", 0, none, none, none, none, none, none, some 1⟩,
          ⟨some "01", "AL", 0, some 50, none, none, none, none, none, some 1⟩]
      = [⟨0, some 50, none, none⟩]) ∧
    (specNationalZeroFill
        [⟨some "02", "AK", 0, none, none, none, none, none, none, some 1⟩,
         ⟨some "01", "AL", 0, some 50, none, none, none, none, none, some 1⟩]
        (fun r => r.fullPct)
      = some 25) ∧
    ((50 : ℚ) ≠ 25) := by
  refine ⟨by decide, ?_, ?_, by norm_num⟩
  · norm_num [nat, pop_weighted_avg, List.filterMap_cons, List.filterMap_nil,
      List.insertionSort, List.orderedInsert, List.dedup_cons_of_mem,
      List.dedup_cons_of_not_mem]
    intro hc
    exact Option.noConfusion hc
  · norm_num [specNationalZeroFill, List.filterMap_cons, List.filterMap_nil]

/-- C2 counterexample: a run whose cases input names only (AL, week 0)
produces a fact table with a single AL row — the declared region AK gets no
row for week 0, so the region × week grid is not completed. -/
theorem C2_grid_incomplete_cex :
    (fact [⟨some "AL", some 0, none, none⟩] [] [] []
      = some [⟨some "01", "AL", 0, none, none, none, none, none, none, none⟩]) ∧
    (("AK", "02") ∈ STATE_TO_FIPS) ∧
    (("AL", (0 : ℤ)) ≠ ("AK", (0 : ℤ))) := by
  refine ⟨by decide, by decide, by decide⟩

/-- C2 amended: for every region R and week W, the fact table holds exactly
as many (R, W)-keyed rows as the cleaned cases input does (one per
surviving input row, provided the population table keys are distinct) —
(region, week) pairs absent from the input are absent from the output, and
pairs present once appear exactly once. -/
theorem C2_fact_keys_match_cases_input (cs : List CasesSrcRow)
    (vs : List VaxSrcRow) (hsrc : List HesRow) (pp : List PopRow)
    (F : List FactRow)
    (hpop : (pp.map (fun p => p.state)).Nodup)
    (hF : fact cs vs hsrc pp = some F) (R : String) (W : ℤ) :
    (F.map (fun r => (r.state, r.date))).countP (fun q => q = (R, W))
      = ((cleanCases cs).map (fun c => (c.state, c.date))).countP
          (fun q => q = (R, W)) := by
  obtain ⟨rows, hj, hFeq⟩ := fact_eq_some cs vs hsrc pp F hF
  subst hFeq
  have h1 : ((sortFact (mergeHes (rows.map selRow) (hes_state hsrc))).map clampRow).map
        (fun r => (r.state, r.date))
      = (sortFact (mergeHes (rows.map selRow) (hes_state hsrc))).map
        (fun r => (r.state, r.date)) := by
    rw [List.map_map]
    rfl
  have h2 : List.Perm
      ((sortFact (mergeHes (rows.map selRow) (hes_state hsrc))).map
        (fun r => (r.state, r.date)))
      ((mergeHes (rows.map selRow) (hes_state hsrc)).map
        (fun r => (r.state, r.date))) :=
    (List.perm_insertionSort factKeyLe _).map _
  have h3 := mergeHes_keys (hes_state hsrc) (hes_state_keys_nodup hsrc)
    (rows.map selRow)
  have h4 : (rows.map selRow).map (fun f : Fact0 => (f.state, f.date))
      = (joinL (mergePop (cleanCases cs) pp) (cleanVax vs) 3).map
          (fun p => (p.1.state, p.1.date)) := by
    rw [join_rows_eq _ _ _ rows hj, List.map_map, List.map_map]
    rfl
  have h5 : List.Perm
      ((joinL (mergePop (cleanCases cs) pp) (cleanVax vs) 3).map
        (fun p => (p.1.state, p.1.date)))
      ((mergePop (cleanCases cs) pp).map (fun c => (c.state, c.date))) := by
    have h := (joinL_fst_perm (mergePop (cleanCases cs) pp) (cleanVax vs) 3).map
      (fun c : CaseFull => (c.state, c.date))
    rw [List.map_map] at h
    exact h
  have h6 := mergePop_keys pp hpop (cleanCases cs)
  exact ((((((List.Perm.of_eq h1).trans h2).trans (List.Perm.of_eq h3)).trans
    (List.Perm.of_eq h4)).trans h5).trans (List.Perm.of_eq h6)).countP_eq
    (fun q => q = (R, W))

/-- Witness for the amended C2: the single (AL, 0) input row yields exactly
one (AL, 0) fact row. -/
theorem C2_fact_keys_match_cases_input_witness :
    (([⟨some "01", "AL", 0, none, none, none, none, none, none, none⟩]
        : List FactRow).map (fun r => (r.state, r.date))).countP
          (fun q => q = ("AL", 0))
      = ((cleanCases [⟨some "AL", some 0, none, none⟩]).map
          (fun c => (c.state, c.date))).countP (fun q => q = ("AL", 0)) :=
  C2_fact_keys_match_cases_input [⟨some "AL", some 0, none, none⟩] [] [] []
    [⟨some "01", "AL", 0, none, none, none, none, none, none, none⟩]
    (by decide) (by decide) "AL" 0

theorem flatMap_perm_pointwise {κ α : Type} {f f' : κ → List α} :
    ∀ (ks : List κ), (∀ k ∈ ks, List.Perm (f k) (f' k)) →
      List.Perm (ks.flatMap f) (ks.flatMap f')
  | [], _ => List.Perm.refl _
  | k :: ks, h => by
    rw [List.flatMap_cons, List.flatMap_cons]
    exact (h k (List.mem_cons_self k ks)).append
      (flatMap_perm_pointwise ks (fun k' hk' => h k' (List.mem_cons_of_mem k hk')))

/-- Shuffling the left rows permutes each group in place and leaves the
group keys unchanged. -/
theorem joinL_perm_left (ls ls' : List CaseFull) (rs : List VaxRow) (g : ℕ)
    (hp : List.Perm ls' ls) :
    List.Perm (joinL ls' rs g) (joinL ls rs g) := by
  unfold joinL
  have hkeys : leftKeys ls' = leftKeys ls := by
    unfold leftKeys
    refine List.eq_of_perm_of_sorted ?_
      (List.sorted_insertionSort strLe _) (List.sorted_insertionSort strLe _)
    exact ((List.perm_insertionSort strLe _).trans
      ((hp.map (fun l => l.state)).dedup)).trans
      (List.perm_insertionSort strLe _).symm
  rw [hkeys]
  refine flatMap_perm_pointwise (leftKeys ls) (fun k _ => ?_)
  rw [groupMatches_eq, groupMatches_eq]
  exact (hp.filter (fun l => l.state = k)).map _

/-- C6: ties between two equidistant right dates resolve to the earlier
date, and the join is insensitive to the order the input rows arrive in —
byte-identical for a shuffled right series (whose (state, date) index has
no duplicates) and row-for-row identical up to the induced reordering for a
shuffled left table. -/
theorem C6_tie_earlier_and_shuffle_deterministic
    (l : CaseFull) (r1 r2 : VaxRow) (g d : ℕ)
    (hs1 : r1.state = l.state) (hs2 : r2.state = l.state)
    (hlt : r1.date < r2.date)
    (hd1 : (r1.date - l.date).natAbs = d) (hd2 : (r2.date - l.date).natAbs = d)
    (hdg : d ≤ g)
    (ls ls' : List CaseFull) (rs rs' : List VaxRow) (gg : ℕ)
    (hperm_r : List.Perm rs' rs)
    (hnd : (rs.map (fun r => (r.state, r.date))).Nodup)
    (hperm_l : List.Perm ls' ls) :
    (left_join_nearest_week [l] [r1, r2] g = .joined [⟨l, some r1⟩]) ∧
    (left_join_nearest_week ls rs' gg = left_join_nearest_week ls rs gg) ∧
    (∀ rows rows', left_join_nearest_week ls rs gg = .joined rows →
      left_join_nearest_week ls' rs gg = .joined rows' →
      List.Perm rows' rows) := by
  refine ⟨?_, ?_, ?_⟩
  · have hsv : sortVax [r1, r2] = [r1, r2] := by
      unfold sortVax
      simp only [List.insertionSort, List.orderedInsert]
      have hcond : vaxKeyLe r1 r2 := by
        unfold vaxKeyLe
        exact Or.inr ⟨by rw [hs1, hs2], le_of_lt hlt⟩
      rw [if_pos hcond]
    have hJL : joinL [l] [r1, r2] g
        = [(l, pick_nearest ([r1, r2].filter (fun r => r.state = l.state)) g l.date)] := by
      unfold joinL leftKeys
      simp only [List.map_cons, List.map_nil, List.dedup_nil,
        List.dedup_cons_of_not_mem, List.not_mem_nil, not_false_iff,
        List.insertionSort, List.orderedInsert, List.flatMap_cons,
        List.flatMap_nil, List.append_nil]
      rw [groupMatches_eq, hsv]
      have hfl : ([l].filter (fun x => x.state = l.state)) = [l] := by simp
      rw [hfl]
      rfl
    have hfr : ([r1, r2].filter (fun r => r.state = l.state)) = [r1, r2] := by
      simp [hs1, hs2]
    have hpick : pick_nearest [r1, r2] g l.date = some 0 := by
      simp [pick_nearest, idxminAux, hd1, hd2, hdg]
    rw [left_join_eq, hJL, hfr, hpick]
    rw [hsv]
    rfl
  · have hsv2 := sortVax_perm_eq rs rs' hperm_r hnd
    rw [left_join_eq, left_join_eq]
    unfold joinL
    rw [hsv2]
  · intro rows rows' h h'
    rw [join_rows_eq ls rs gg rows h, join_rows_eq ls' rs gg rows' h']
    exact (joinL_perm_left ls ls' rs gg hperm_l).map _

/-- Witness for C6: a tie at distance 1 between dates 0 and 2 around left
date 1 picks date 0, and concrete shuffles of the right and left inputs
leave the join unchanged. -/
theorem C6_tie_earlier_and_shuffle_deterministic_witness :
    (left_join_nearest_week [⟨"AL", 1, none, none, none, some "01", none, none⟩]
        [⟨"AL", 0, none, some 10, none⟩, ⟨"AL", 2, none, some 20, none⟩] 3
      = .joined [⟨⟨"AL", 1, none, none, none, some "01", none, none⟩,
                  some ⟨"AL", 0, none, some 10, none⟩⟩]) ∧
    (left_join_nearest_week
        [⟨"AK", 0, none, none, none, some "02", none, none⟩,
         ⟨"AL", 0, none, none, none, some "01", none, none⟩]
        [⟨"AL", 0, none, some 2, none⟩, ⟨"AK", 0, none, some 1, none⟩] 3
      = left_join_nearest_week
        [⟨"AK", 0, none, none, none, some "02", none, none⟩,
         ⟨"AL", 0, none, none, none, some "01", none, none⟩]
        [⟨"AK", 0, none, some 1, none⟩, ⟨"AL", 0, none, some 2, none⟩] 3) ∧
    (∀ rows rows',
      left_join_nearest_week
        [⟨"AK", 0, none, none, none, some "02", none, none⟩,
         ⟨"AL", 0, none, none, none, some "01", none, none⟩]
        [⟨"AK", 0, none, some 1, none⟩, ⟨"AL", 0, none, some 2, none⟩] 3
        = .joined rows →
      left_join_nearest_week
        [⟨"AL", 0, none, none, none, some "01", none, none⟩,
         ⟨"AK", 0, none, none, none, some "02", none, none⟩]
        [⟨"AK", 0, none, some 1, none⟩, ⟨"AL", 0, none, some 2, none⟩] 3
        = .joined rows' →
      List.Perm rows' rows) :=
  C6_tie_earlier_and_shuffle_deterministic
    ⟨"AL", 1, none, none, none, some "01", none, none⟩
    ⟨"AL", 0, none, some 10, none⟩ ⟨"AL", 2, none, some 20, none⟩ 3 1
    rfl rfl (by decide) (by decide) (by decide) (by decide)
    [⟨"AK", 0, none, none, none, some "02", none, none⟩,
     ⟨"AL", 0, none, none, none, some "01", none, none⟩]
    [⟨"AL", 0, none, none, none, some "01", none, none⟩,
     ⟨"AK", 0, none, none, none, some "02", none, none⟩]
    [⟨"AK", 0, none, some 1, none⟩, ⟨"AL", 0, none, some 2, none⟩]
    [⟨"AL", 0, none, some 2, none⟩, ⟨"AK", 0, none, some 1, none⟩] 3
    (by decide) (by decide) (by decide)
